import Mathlib

/-!
Verification of the transcript-to-document renderer of the
meeting-transcriber repository.

The renderer (`convert_to_markdown`) lives in two nearly identical copies:
`src/meeting_transcriber/transcription/markdown_converter.py` and
`src/meeting_transcriber/aws_transcribe.py`.  We embed both shallowly:

  * Python floats become rationals (`ℚ`); the float operations used by the
    code (`//`, `%`, `int(...)`) are embedded as `pyFloorDiv`, `pyMod`,
    `pyInt` below with the Python semantics (floor division, sign-of-divisor
    modulo, truncation toward zero).
  * JSON dictionary access that can raise (`KeyError` for a missing
    `start_time`/`end_time` on a pronunciation item, `IndexError` for an
    empty `alternatives` list) is embedded with `Option` fields and an
    `Except String` result.
  * The Python dict `speaker_timeline`, keyed by `(start_time, end_time)`
    tuples, is embedded as an association list with dict semantics:
    inserting an existing key overwrites the value in place (keeping the
    original position of the key), a new key is appended at the end, and
    iteration is in that order (`timelineInsert` / `speakerTimeline`).
  * The loop with its mutable accumulator becomes a fold over `ConvState`.
-/

/-- One element of the alternatives array of an item. -/
structure ItemAlternative where
  content : String
deriving DecidableEq

/-- One element of `results.items`: a token of the transcript.  `type` is the
raw string tag (`"pronunciation"` or `"punctuation"`; anything else is
ignored by the renderer).  `start_time`/`end_time` are `none` when the field
is absent or non-numeric (in which case dereferencing it raises). -/
structure Item where
  type : String
  start_time : Option ℚ
  end_time : Option ℚ
  alternatives : List ItemAlternative
deriving DecidableEq

/-- One element of `results.speaker_labels.segments`: a diarization
interval with a speaker label. -/
structure Segment where
  start_time : ℚ
  end_time : ℚ
  speaker_label : String
deriving DecidableEq

/-- The `results.speaker_labels` object; `segments` is `none` when the key
is absent (the code then defaults to `[]`). -/
structure SpeakerLabels where
  segments : Option (List Segment)
deriving DecidableEq

/-- The `results` object; `speaker_labels` is `none` when the key is absent
(the code then defaults to an empty dict). -/
structure Results where
  items : List Item
  speaker_labels : Option SpeakerLabels
deriving DecidableEq

/-- The whole transcript JSON value handed to the renderer. -/
structure TranscriptData where
  results : Results
deriving DecidableEq

/-- Python float floor division `a // b`. -/
def pyFloorDiv (a b : ℚ) : ℚ := (⌊a / b⌋ : ℤ)

/-- Python float modulo `a % b` (result has the sign of the divisor;
for the divisors used here, `a % b = a - b * floor (a / b)`). -/
def pyMod (a b : ℚ) : ℚ := a - b * (⌊a / b⌋ : ℤ)

/-- Python `int(...)` on a float: truncation toward zero. -/
def pyInt (q : ℚ) : ℤ := if q < 0 then ⌈q⌉ else ⌊q⌋

/-- Python zero-padding of an integer to width two, as in the format
spec 02d (a negative number already prints with at least two characters). -/
def pad2 (n : ℤ) : String :=
  if 0 ≤ n ∧ n < 10 then "0" ++ toString n else toString n

/-- The MM:SS timestamp rendering of a time in seconds, exactly as
computed by the code: minutes are int of q floor-div 60, seconds are int
of q mod 60, each zero-padded to width two. -/
def fmtTimestamp (q : ℚ) : String :=
  pad2 (pyInt (pyFloorDiv q 60)) ++ ":" ++ pad2 (pyInt (pyMod q 60))

/-- One rendered output line
`[speaker: LBL][MM:SS-MM:SS]: text`. -/
def speakerLine (spk : String) (cs ce : ℚ) (text : String) : String :=
  "[speaker: " ++ spk ++ "][" ++ fmtTimestamp cs ++ "-" ++ fmtTimestamp ce
    ++ "]: " ++ text

/-- Python dict insertion: overwrite in place when the key exists, append
otherwise. -/
def timelineInsert (tl : List ((ℚ × ℚ) × String)) (k : ℚ × ℚ) (v : String) :
    List ((ℚ × ℚ) × String) :=
  match tl with
  | [] => [(k, v)]
  | (k', v') :: rest =>
      if k' = k then (k, v) :: rest else (k', v') :: timelineInsert rest k v

/-- The `speaker_timeline` dict built from the segments list. -/
def speakerTimeline (segs : List Segment) : List ((ℚ × ℚ) × String) :=
  segs.foldl
    (fun tl seg => timelineInsert tl (seg.start_time, seg.end_time) seg.speaker_label)
    []

/-- The per-word speaker lookup: first entry of the timeline whose closed
interval contains `t`. -/
def findSpeaker (tl : List ((ℚ × ℚ) × String)) (t : ℚ) : Option String :=
  match tl with
  | [] => none
  | ((s, e), spk) :: rest =>
      if s ≤ t ∧ t ≤ e then some spk else findSpeaker rest t

/-- The loop accumulator: emitted lines plus the current run. -/
structure ConvState where
  markdown_lines : List String
  current_speaker : Option String
  current_text : List String
  current_start : Option ℚ
  current_end : Option ℚ
deriving DecidableEq

/-- State before the first item. -/
def initState : ConvState :=
  { markdown_lines := []
  , current_speaker := none
  , current_text := []
  , current_start := none
  , current_end := none }

/-- Python truthiness of the `current_speaker` value: `None` and `""` are
falsy, every other string is truthy. -/
def truthy : Option String → Bool
  | none => false
  | some s => s ≠ ""

/-- Python `current_text[-1] += p` on a non-empty list (identity on `[]`,
which the code never reaches). -/
def appendToLast (ws : List String) (p : String) : List String :=
  match ws with
  | [] => []
  | [w] => [w ++ p]
  | w :: rest => w :: appendToLast rest p

/-- The flush of `markdown_converter.py` (lines 46-59 and 76-89): guarded by
`current_speaker and current_text and current_start is not None and
current_end is not None`; returns the new `markdown_lines`. -/
def flushMC (st : ConvState) : List String :=
  match st.current_speaker, st.current_start, st.current_end with
  | some spk, some cs, some ce =>
      if spk ≠ "" ∧ st.current_text ≠ [] then
        st.markdown_lines
          ++ [speakerLine spk cs ce (String.intercalate " " st.current_text)]
      else st.markdown_lines
  | _, _, _ => st.markdown_lines

/-- The flush of `aws_transcribe.py` (lines 173-181 and 198-206): guarded
only by `current_speaker and current_text`, then dereferencing
`current_start // 60` — a `TypeError` if `current_start`/`current_end` is
`None` at that point. -/
def flushAWS (st : ConvState) : Except String (List String) :=
  if truthy st.current_speaker ∧ st.current_text ≠ [] then
    match st.current_speaker, st.current_start, st.current_end with
    | some spk, some cs, some ce =>
        .ok (st.markdown_lines
          ++ [speakerLine spk cs ce (String.intercalate " " st.current_text)])
    | _, _, _ => .error "TypeError"
  else .ok st.markdown_lines

/-- One loop iteration of `markdown_converter.py` (lines 30-73). -/
def stepMC (tl : List ((ℚ × ℚ) × String)) (st : ConvState) (item : Item) :
    Except String ConvState :=
  if item.type = "pronunciation" then
    match item.start_time, item.end_time, item.alternatives with
    | some item_start, some item_end, alt :: _ =>
        let word := alt.content
        let item_speaker := findSpeaker tl item_start
        if item_speaker ≠ st.current_speaker then
          .ok { markdown_lines := flushMC st
              , current_speaker := item_speaker
              , current_text := [word]
              , current_start := some item_start
              , current_end := some item_end }
        else
          .ok { st with current_text := st.current_text ++ [word]
                      , current_end := some item_end }
    | _, _, _ => .error "KeyError"
  else if item.type = "punctuation" then
    if st.current_text ≠ [] then
      match item.alternatives with
      | alt :: _ =>
          .ok { st with current_text := appendToLast st.current_text alt.content }
      | [] => .error "IndexError"
    else .ok st
  else .ok st

/-- One loop iteration of `aws_transcribe.py` (lines 157-195); identical to
`stepMC` except that the mid-loop flush is the weaker-guarded `flushAWS`. -/
def stepAWS (tl : List ((ℚ × ℚ) × String)) (st : ConvState) (item : Item) :
    Except String ConvState :=
  if item.type = "pronunciation" then
    match item.start_time, item.end_time, item.alternatives with
    | some item_start, some item_end, alt :: _ =>
        let word := alt.content
        let item_speaker := findSpeaker tl item_start
        if item_speaker ≠ st.current_speaker then
          match flushAWS st with
          | .ok lines =>
              .ok { markdown_lines := lines
                  , current_speaker := item_speaker
                  , current_text := [word]
                  , current_start := some item_start
                  , current_end := some item_end }
          | .error e => .error e
        else
          .ok { st with current_text := st.current_text ++ [word]
                      , current_end := some item_end }
    | _, _, _ => .error "KeyError"
  else if item.type = "punctuation" then
    if st.current_text ≠ [] then
      match item.alternatives with
      | alt :: _ =>
          .ok { st with current_text := appendToLast st.current_text alt.content }
      | [] => .error "IndexError"
    else .ok st
  else .ok st

/-- The segments list: default empty when the speaker_labels key or the
segments key is absent, as the two chained dict get calls do. -/
def getSegments (r : Results) : List Segment :=
  match r.speaker_labels with
  | none => []
  | some sl => sl.segments.getD []

namespace MarkdownConverter

/-- The renderer of
`src/meeting_transcriber/transcription/markdown_converter.py`: its result is
the content written to the markdown file. -/
def convert_to_markdown (transcript_data : TranscriptData) : Except String String :=
  let items := transcript_data.results.items
  let tl := speakerTimeline (getSegments transcript_data.results)
  match items.foldlM (stepMC tl) initState with
  | .error e => .error e
  | .ok st =>
      .ok ("# Meeting Transcript\n\n"
        ++ String.intercalate "\n\n" (flushMC st))

end MarkdownConverter

namespace AwsTranscribe

/-- The renderer of `src/meeting_transcriber/aws_transcribe.py` (lines
133-213): identical but for the weaker flush guards. -/
def convert_to_markdown (transcript_data : TranscriptData) : Except String String :=
  let items := transcript_data.results.items
  let tl := speakerTimeline (getSegments transcript_data.results)
  match items.foldlM (stepAWS tl) initState with
  | .error e => .error e
  | .ok st =>
      match flushAWS st with
      | .error e => .error e
      | .ok lines =>
          .ok ("# Meeting Transcript\n\n" ++ String.intercalate "\n\n" lines)

end AwsTranscribe

/-- A well-formed pronunciation item. -/
def wordItem (w : String) (ts te : ℚ) : Item :=
  { type := "pronunciation"
  , start_time := some ts
  , end_time := some te
  , alternatives := [{ content := w }] }

/-- A well-formed punctuation item. -/
def punctuationItem (p : String) : Item :=
  { type := "punctuation"
  , start_time := none
  , end_time := none
  , alternatives := [{ content := p }] }

/-- Input wrapper: a transcript with explicit segments. -/
def mkData (items : List Item) (segs : List Segment) : TranscriptData :=
  { results := { items := items
               , speaker_labels := some { segments := some segs } } }


/-- The per-word speaker lookup as the spec words it for the amended C2:
the label of the first segment in input order whose closed interval
contains `t`, with no deduplication of identical intervals. -/
def specFirstMatchingLabel (segs : List Segment) (t : ℚ) : Option String :=
  match segs with
  | [] => none
  | seg :: rest =>
      if seg.start_time ≤ t ∧ t ≤ seg.end_time then some seg.speaker_label
      else specFirstMatchingLabel rest t

lemma fmtTimestamp_eq (q : ℚ) (m s : ℤ) (hq : 0 ≤ q)
    (hm : ⌊q / 60⌋ = m) (hs : ⌊q - 60 * (m : ℚ)⌋ = s) :
    fmtTimestamp q = pad2 m ++ ":" ++ pad2 s := by
  have hm0 : 0 ≤ m := by
    subst hm
    exact Int.floor_nonneg.mpr (by positivity)
  have hmle : (m : ℚ) ≤ q / 60 := by
    subst hm
    exact Int.floor_le _
  have h60 : 60 * (m : ℚ) ≤ q := by
    rw [le_div_iff₀ (by norm_num : (0:ℚ) < 60)] at hmle
    linarith
  have hsub0 : (0:ℚ) ≤ q - 60 * (m : ℚ) := by linarith
  unfold fmtTimestamp pyFloorDiv pyMod pyInt
  rw [hm]
  rw [if_neg (not_lt.mpr (by exact_mod_cast hm0 : (0:ℚ) ≤ (m:ℚ)))]
  rw [if_neg (not_lt.mpr hsub0)]
  rw [Int.floor_intCast, hs]

lemma fmtTimestamp_zero : fmtTimestamp 0 = "00:00" := by
  rw [fmtTimestamp_eq 0 0 0 le_rfl (by norm_num [Int.floor_eq_iff])
    (by norm_num [Int.floor_eq_iff])]
  rfl

lemma fmtTimestamp_one : fmtTimestamp 1 = "00:01" := by
  rw [fmtTimestamp_eq 1 0 1 (by norm_num) (by norm_num [Int.floor_eq_iff])
    (by norm_num [Int.floor_eq_iff])]
  rfl

lemma fmtTimestamp_two : fmtTimestamp 2 = "00:02" := by
  rw [fmtTimestamp_eq 2 0 2 (by norm_num) (by norm_num [Int.floor_eq_iff])
    (by norm_num [Int.floor_eq_iff])]
  rfl

lemma fmtTimestamp_three : fmtTimestamp 3 = "00:03" := by
  rw [fmtTimestamp_eq 3 0 3 (by norm_num) (by norm_num [Int.floor_eq_iff])
    (by norm_num [Int.floor_eq_iff])]
  rfl

lemma appendToLast_append (ws : List String) (w p : String) :
    appendToLast (ws ++ [w]) p = ws ++ [w ++ p] := by
  induction ws with
  | nil => rfl
  | cons x xs ih =>
      cases xs with
      | nil => rfl
      | cons y ys =>
          show x :: appendToLast ((y :: ys) ++ [w]) p = _
          rw [ih]
          rfl

lemma stepMC_nil_preserves (st : ConvState) (it : Item) (st1 : ConvState)
    (h1 : st.current_speaker = none) (h2 : st.markdown_lines = [])
    (hstep : stepMC [] st it = .ok st1) :
    st1.current_speaker = none ∧ st1.markdown_lines = [] := by
  rcases st with ⟨lines, spk, text, cs, ce⟩
  rcases it with ⟨ty, tst, ten, talts⟩
  simp only at h1 h2
  subst h1; subst h2
  unfold stepMC at hstep
  by_cases hp : ty = "pronunciation"
  · rw [if_pos hp] at hstep
    cases tst with
    | none => simp at hstep
    | some a =>
        cases ten with
        | none => simp at hstep
        | some b =>
            cases talts with
            | nil => simp at hstep
            | cons alt alts =>
                simp only [findSpeaker] at hstep
                rw [if_neg (by simp)] at hstep
                cases hstep
                exact ⟨rfl, rfl⟩
  · rw [if_neg hp] at hstep
    by_cases hq : ty = "punctuation"
    · rw [if_pos hq] at hstep
      by_cases ht : text = []
      · rw [if_neg (by simp [ht])] at hstep
        cases hstep
        exact ⟨rfl, rfl⟩
      · rw [if_pos ht] at hstep
        cases talts with
        | nil => simp at hstep
        | cons alt alts =>
            cases hstep
            exact ⟨rfl, rfl⟩
    · rw [if_neg hq] at hstep
      cases hstep
      exact ⟨rfl, rfl⟩

lemma foldlM_empty_timeline (l : List Item) :
    ∀ st : ConvState, st.current_speaker = none → st.markdown_lines = [] →
      ∀ st', List.foldlM (stepMC []) st l = .ok st' →
        st'.current_speaker = none ∧ st'.markdown_lines = [] := by
  induction l with
  | nil =>
      intro st h1 h2 st' hf
      simp only [List.foldlM_nil, pure, Except.pure, Except.ok.injEq] at hf
      rw [← hf]
      exact ⟨h1, h2⟩
  | cons it rest ih =>
      intro st h1 h2 st' hf
      rw [List.foldlM_cons] at hf
      cases hstep : stepMC [] st it with
      | error e => rw [hstep] at hf; simp [Bind.bind, Except.bind] at hf
      | ok st1 =>
          rw [hstep] at hf
          simp only [Bind.bind, Except.bind] at hf
          obtain ⟨g1, g2⟩ := stepMC_nil_preserves st it st1 h1 h2 hstep
          exact ih st1 g1 g2 st' hf

/-- C3: with an empty items sequence, whatever the speaker labels are, the
rendered document content is exactly the title line followed by one blank
line and nothing else. -/
theorem C3_empty_items_title_only (sl : Option SpeakerLabels) :
    MarkdownConverter.convert_to_markdown ⟨⟨[], sl⟩⟩
      = .ok "# Meeting Transcript\n\n" := rfl

/-- C9: an input whose results object lacks the speaker_labels key, or
whose speaker_labels object lacks the segments key, renders exactly as the
same input with an explicit empty segments list does. -/
theorem C9_missing_speaker_labels_defaults (items : List Item) :
    MarkdownConverter.convert_to_markdown ⟨⟨items, none⟩⟩
        = MarkdownConverter.convert_to_markdown ⟨⟨items, some ⟨some []⟩⟩⟩
    ∧ MarkdownConverter.convert_to_markdown ⟨⟨items, some ⟨none⟩⟩⟩
        = MarkdownConverter.convert_to_markdown ⟨⟨items, some ⟨some []⟩⟩⟩ :=
  ⟨rfl, rfl⟩

/-- C1 counterexample: a single word whose time falls in no segment is NOT
rendered with an empty speaker tag; it is dropped entirely, so the
document is the bare title, not the line the claim predicts. -/
theorem C1_counterexample :
    MarkdownConverter.convert_to_markdown (mkData [wordItem "Hello" 0 1] [])
        = .ok "# Meeting Transcript\n\n"
    ∧ "# Meeting Transcript\n\n"
        ≠ "# Meeting Transcript\n\n[speaker: ][00:00-00:01]: Hello" :=
  ⟨rfl, by decide⟩

/-- C1 (amended): a word whose start time falls within no speaker segment
resolves to no speaker; a run whose speaker is undefined is never flushed
(the flush guard requires a truthy speaker), so its words are dropped;
every line the flush ever emits carries a non-empty speaker label, so no
empty speaker tag is ever produced; with an empty segments list every
successful rendering is title-only; and on a non-degenerate input with a
non-empty segments list, a word at an uncovered time is dropped while the
covered words render. -/
theorem C1_unattributed_words_dropped :
    (∀ (tl : List ((ℚ × ℚ) × String)) (t : ℚ),
        (∀ p ∈ tl, ¬(p.1.1 ≤ t ∧ t ≤ p.1.2)) → findSpeaker tl t = none)
    ∧ (∀ st : ConvState, st.current_speaker = none →
        flushMC st = st.markdown_lines)
    ∧ (∀ (st : ConvState) (line : String), line ∈ flushMC st →
        line ∈ st.markdown_lines
        ∨ ∃ spk cs ce text, spk ≠ "" ∧ line = speakerLine spk cs ce text)
    ∧ (∀ (td : TranscriptData), getSegments td.results = [] →
        ∀ s, MarkdownConverter.convert_to_markdown td = .ok s →
          s = "# Meeting Transcript\n\n")
    ∧ MarkdownConverter.convert_to_markdown
        (mkData [wordItem "A" 0 1, wordItem "B" 5 6]
          [{ start_time := 0, end_time := 1, speaker_label := "spk_0" }])
      = .ok "# Meeting Transcript\n\n[speaker: spk_0][00:00-00:01]: A" := by
  refine ⟨?_, ?_, ?_, ?_, ?_⟩
  · intro tl t h
    induction tl with
    | nil => rfl
    | cons p rest ih =>
        rcases p with ⟨⟨ps, pe⟩, pspk⟩
        simp only [findSpeaker]
        rw [if_neg (h _ (List.mem_cons_self _ _))]
        exact ih fun q hq => h q (List.mem_cons_of_mem _ hq)
  · intro st h
    rcases st with ⟨lines, spk, text, cs, ce⟩
    simp only at h
    subst h
    cases cs <;> cases ce <;> rfl
  · intro st line hline
    rcases st with ⟨lines, spk, text, cs, ce⟩
    cases spk with
    | none => exact Or.inl hline
    | some s =>
        cases cs with
        | none => exact Or.inl hline
        | some a =>
            cases ce with
            | none => exact Or.inl hline
            | some b =>
                simp only [flushMC] at hline
                by_cases hc : s ≠ "" ∧ text ≠ []
                · rw [if_pos hc] at hline
                  rcases List.mem_append.mp hline with h1 | h2
                  · exact Or.inl h1
                  · exact Or.inr ⟨s, a, b, _, hc.1, List.mem_singleton.mp h2⟩
                · rw [if_neg hc] at hline
                  exact Or.inl hline
  · intro td hseg s hok
    unfold MarkdownConverter.convert_to_markdown at hok
    rw [hseg] at hok
    dsimp only at hok
    cases hf : List.foldlM (stepMC (speakerTimeline [])) initState
        td.results.items with
    | error e => rw [hf] at hok; exact absurd hok (by simp)
    | ok stf =>
        rw [hf] at hok
        simp only [Except.ok.injEq] at hok
        obtain ⟨g1, g2⟩ :=
          foldlM_empty_timeline td.results.items initState rfl rfl stf hf
        rcases stf with ⟨lines, spk, text, cs, ce⟩
        simp only at g1 g2
        subst g1; subst g2
        simp only [flushMC, String.intercalate] at hok
        rw [← hok]
        rfl
  · have hA : speakerLine "spk_0" 0 1 "A"
        = "[speaker: spk_0][00:00-00:01]: A" := by
      unfold speakerLine
      rw [fmtTimestamp_zero, fmtTimestamp_one]
      rfl
    calc
      MarkdownConverter.convert_to_markdown
          (mkData [wordItem "A" 0 1, wordItem "B" 5 6]
            [{ start_time := 0, end_time := 1, speaker_label := "spk_0" }])
          = .ok ("# Meeting Transcript\n\n"
              ++ String.intercalate "\n\n" [speakerLine "spk_0" 0 1 "A"]) := rfl
      _ = .ok "# Meeting Transcript\n\n[speaker: spk_0][00:00-00:01]: A" := by
          rw [hA]
          rfl

/-- C1 witness: the amended claim at concrete inputs — an uncovered time
resolving to no speaker, a concrete undefined-speaker run flushing
nothing, a concrete flushed line with its non-empty label, and the
empty-segments title-only rendering. -/
theorem C1_unattributed_words_dropped_witness :
    (∀ p ∈ [(((0 : ℚ), (1 : ℚ)), "spk_0")], ¬(p.1.1 ≤ (5:ℚ) ∧ (5:ℚ) ≤ p.1.2))
    ∧ findSpeaker [(((0 : ℚ), (1 : ℚ)), "spk_0")] 5 = none
    ∧ (⟨["x"], none, ["B"], some 5, some 6⟩ : ConvState).current_speaker = none
    ∧ flushMC ⟨["x"], none, ["B"], some 5, some 6⟩
        = (⟨["x"], none, ["B"], some 5, some 6⟩ : ConvState).markdown_lines
    ∧ (speakerLine "spk_0" 0 1 (String.intercalate " " ["A"])
          ∈ (⟨["y"], some "spk_0", ["A"], some 0, some 1⟩ : ConvState).markdown_lines
        ∨ ∃ spk cs ce text, spk ≠ ""
            ∧ speakerLine "spk_0" 0 1 (String.intercalate " " ["A"])
                = speakerLine spk cs ce text)
    ∧ getSegments (mkData [wordItem "Hi" 5 6] []).results = []
    ∧ MarkdownConverter.convert_to_markdown (mkData [wordItem "Hi" 5 6] [])
        = .ok "# Meeting Transcript\n\n"
    ∧ "# Meeting Transcript\n\n" = "# Meeting Transcript\n\n" :=
  ⟨by decide,
   C1_unattributed_words_dropped.1 [(((0 : ℚ), (1 : ℚ)), "spk_0")] 5 (by decide),
   rfl,
   C1_unattributed_words_dropped.2.1 ⟨["x"], none, ["B"], some 5, some 6⟩ rfl,
   C1_unattributed_words_dropped.2.2.1
     ⟨["y"], some "spk_0", ["A"], some 0, some 1⟩
     (speakerLine "spk_0" 0 1 (String.intercalate " " ["A"]))
     (by simp [flushMC]),
   rfl, rfl,
   C1_unattributed_words_dropped.2.2.2.1 (mkData [wordItem "Hi" 5 6] []) rfl
     "# Meeting Transcript\n\n" rfl⟩

lemma stepMC_word (tl : List ((ℚ × ℚ) × String)) (st : ConvState)
    (w : String) (ts te : ℚ) :
    stepMC tl st (wordItem w ts te)
      = if findSpeaker tl ts ≠ st.current_speaker then
          .ok { markdown_lines := flushMC st
              , current_speaker := findSpeaker tl ts
              , current_text := [w]
              , current_start := some ts
              , current_end := some te }
        else
          .ok { st with current_text := st.current_text ++ [w]
                      , current_end := some te } := rfl

lemma stepMC_punct (tl : List ((ℚ × ℚ) × String)) (st : ConvState) (p : String) :
    stepMC tl st (punctuationItem p)
      = if st.current_text ≠ [] then
          .ok { st with current_text := appendToLast st.current_text p }
        else .ok st := rfl

/-- C4: a punctuation item arriving while the run has accumulated words is
glued onto the last accumulated word with no intervening space, two
consecutive punctuation items glue onto that same word in order, and a
punctuation item arriving with no open run is silently dropped, leaving
the state (and hence the output) unchanged. -/
theorem C4_punctuation_glue_and_drop (tl : List ((ℚ × ℚ) × String))
    (st : ConvState) (ws : List String) (w p q : String) :
    (st.current_text = ws ++ [w] →
        stepMC tl st (punctuationItem p)
          = .ok { st with current_text := ws ++ [w ++ p] })
    ∧ (st.current_text = ws ++ [w] →
        Except.bind (stepMC tl st (punctuationItem p))
            (fun st1 => stepMC tl st1 (punctuationItem q))
          = .ok { st with current_text := ws ++ [w ++ p ++ q] })
    ∧ (st.current_text = [] → stepMC tl st (punctuationItem p) = .ok st) := by
  rcases st with ⟨lines, spk, text, cs, ce⟩
  refine ⟨?_, ?_, ?_⟩
  · intro h
    simp only at h
    subst h
    rw [stepMC_punct, if_pos (by simp)]
    rw [appendToLast_append]
  · intro h
    simp only at h
    subst h
    rw [stepMC_punct, if_pos (by simp)]
    rw [appendToLast_append]
    show stepMC tl ⟨lines, spk, ws ++ [w ++ p], cs, ce⟩ (punctuationItem q) = _
    rw [stepMC_punct, if_pos (by simp), appendToLast_append]
  · intro h
    simp only at h
    subst h
    rw [stepMC_punct, if_neg (by simp)]

/-- C4 witness: gluing a period onto an open run, and dropping a period
when no run is open. -/
theorem C4_punctuation_glue_and_drop_witness :
    (⟨[], some "spk_0", ["Hello"], some 0, some 1⟩ : ConvState).current_text
        = [] ++ ["Hello"]
    ∧ stepMC [] ⟨[], some "spk_0", ["Hello"], some 0, some 1⟩ (punctuationItem ".")
        = .ok ⟨[], some "spk_0", ["Hello."], some 0, some 1⟩
    ∧ initState.current_text = []
    ∧ stepMC [] initState (punctuationItem ".") = .ok initState :=
  ⟨rfl,
   (C4_punctuation_glue_and_drop []
      ⟨[], some "spk_0", ["Hello"], some 0, some 1⟩ [] "Hello" "." "?").1 rfl,
   rfl,
   (C4_punctuation_glue_and_drop [] initState [] "x" "." "?").2.2 rfl⟩

/-- C6: the speaker of the run state after processing a word is exactly
`findSpeaker` of the timeline at the start time of that word — a function
of the word and the segment timeline only, whatever the prior state — and
the lookup interval is closed at both ends: a time equal to the start or
the end bound of an entry matches that entry. -/
theorem C6_per_word_closed_interval_lookup :
    (∀ (tl : List ((ℚ × ℚ) × String)) (st st' : ConvState) (w : String)
        (ts te : ℚ),
        stepMC tl st (wordItem w ts te) = .ok st' →
          st'.current_speaker = findSpeaker tl ts)
    ∧ (∀ (s e t : ℚ) (spk : String) (rest : List ((ℚ × ℚ) × String)),
        s ≤ t → t ≤ e → findSpeaker (((s, e), spk) :: rest) t = some spk) := by
  constructor
  · intro tl st st' w ts te h
    rw [stepMC_word] at h
    by_cases hd : findSpeaker tl ts = st.current_speaker
    · rw [if_neg (by simp [hd])] at h
      cases h
      exact hd.symm
    · rw [if_pos hd] at h
      cases h
      rfl
  · intro s e t spk rest h1 h2
    simp only [findSpeaker]
    rw [if_pos ⟨h1, h2⟩]

/-- C6 witness: the per-word lookup at a concrete word and the closed
interval bounds at a concrete segment. -/
theorem C6_per_word_closed_interval_lookup_witness :
    stepMC [((0, 2), "spk_0")] initState (wordItem "Hello" 0 1)
        = .ok ⟨[], some "spk_0", ["Hello"], some 0, some 1⟩
    ∧ (⟨[], some "spk_0", ["Hello"], some 0, some 1⟩ : ConvState).current_speaker
        = findSpeaker [((0, 2), "spk_0")] 0
    ∧ (0 : ℚ) ≤ 0 ∧ (0 : ℚ) ≤ 2 ∧ (2 : ℚ) ≤ 2
    ∧ findSpeaker [((0, 2), "spk_0")] 0 = some "spk_0"
    ∧ findSpeaker [((0, 2), "spk_0")] 2 = some "spk_0" :=
  ⟨rfl,
   C6_per_word_closed_interval_lookup.1 [((0, 2), "spk_0")] initState
     ⟨[], some "spk_0", ["Hello"], some 0, some 1⟩ "Hello" 0 1 rfl,
   by decide, by decide, by decide,
   C6_per_word_closed_interval_lookup.2 0 2 0 "spk_0" [] (by decide) (by decide),
   C6_per_word_closed_interval_lookup.2 0 2 2 "spk_0" [] (by decide) (by decide)⟩

lemma timelineInsert_not_mem (tl : List ((ℚ × ℚ) × String)) (k : ℚ × ℚ)
    (v : String) (hk : k ∉ tl.map Prod.fst) :
    timelineInsert tl k v = tl ++ [(k, v)] := by
  induction tl with
  | nil => rfl
  | cons hd rest ih =>
      rcases hd with ⟨k', v'⟩
      simp only [List.map_cons, List.mem_cons, not_or] at hk
      have hne : ¬(k' = k) := fun he => hk.1 he.symm
      show (if k' = k then (k, v) :: rest else (k', v') :: timelineInsert rest k v)
          = (k', v') :: rest ++ [(k, v)]
      rw [if_neg hne, ih hk.2]
      rfl

lemma foldl_timeline_nodup (segs : List Segment) :
    ∀ tl : List ((ℚ × ℚ) × String),
      (tl.map Prod.fst ++ segs.map fun s => (s.start_time, s.end_time)).Nodup →
      segs.foldl
          (fun acc seg =>
            timelineInsert acc (seg.start_time, seg.end_time) seg.speaker_label) tl
        = tl ++ segs.map fun s => ((s.start_time, s.end_time), s.speaker_label) := by
  induction segs with
  | nil => intro tl _; simp
  | cons seg rest ih =>
      intro tl h
      rw [List.foldl_cons]
      have hkey : (seg.start_time, seg.end_time) ∉ tl.map Prod.fst := by
        intro hmem
        have hdisj := List.disjoint_of_nodup_append h
        exact hdisj hmem (by simp)
      rw [timelineInsert_not_mem tl _ _ hkey]
      have h' : ((tl ++ [((seg.start_time, seg.end_time), seg.speaker_label)]).map
            Prod.fst ++ rest.map fun s => (s.start_time, s.end_time)).Nodup := by
        simpa [List.append_assoc] using h
      rw [ih _ h']
      simp

lemma speakerTimeline_nodup (segs : List Segment)
    (h : (segs.map fun s => (s.start_time, s.end_time)).Nodup) :
    speakerTimeline segs
      = segs.map fun s => ((s.start_time, s.end_time), s.speaker_label) := by
  have := foldl_timeline_nodup segs [] (by simpa using h)
  simpa [speakerTimeline] using this

lemma findSpeaker_map (segs : List Segment) (t : ℚ) :
    findSpeaker (segs.map fun s => ((s.start_time, s.end_time), s.speaker_label)) t
      = specFirstMatchingLabel segs t := by
  induction segs with
  | nil => rfl
  | cons seg rest ih =>
      simp only [List.map_cons, findSpeaker, specFirstMatchingLabel]
      by_cases hc : seg.start_time ≤ t ∧ t ≤ seg.end_time
      · rw [if_pos hc, if_pos hc]
      · rw [if_neg hc, if_neg hc, ih]

/-- C2 counterexample: two segments with identical intervals but different
labels; the word is attributed to the label of the SECOND segment in input
order, because the dict keyed on the interval deduplicates last-write-wins,
contradicting the claim that the first one wins. -/
theorem C2_counterexample :
    MarkdownConverter.convert_to_markdown
        (mkData [wordItem "Hi" 1 2]
          [{ start_time := 0, end_time := 2, speaker_label := "spk_0" },
           { start_time := 0, end_time := 2, speaker_label := "spk_1" }])
      = .ok "# Meeting Transcript\n\n[speaker: spk_1][00:01-00:02]: Hi"
    ∧ "spk_1" ≠ "spk_0" := by
  constructor
  · have hline : speakerLine "spk_1" 1 2 "Hi"
        = "[speaker: spk_1][00:01-00:02]: Hi" := by
      unfold speakerLine
      rw [fmtTimestamp_one, fmtTimestamp_two]
      rfl
    calc
      MarkdownConverter.convert_to_markdown
          (mkData [wordItem "Hi" 1 2]
            [{ start_time := 0, end_time := 2, speaker_label := "spk_0" },
             { start_time := 0, end_time := 2, speaker_label := "spk_1" }])
          = .ok ("# Meeting Transcript\n\n"
              ++ String.intercalate "\n\n" [speakerLine "spk_1" 1 2 "Hi"]) := rfl
      _ = .ok "# Meeting Transcript\n\n[speaker: spk_1][00:01-00:02]: Hi" := by
          rw [hline]
          rfl
  · decide

/-- C2 (amended): when all segments carry pairwise-distinct
(start_time, end_time) pairs the first matching segment in input order
wins; segments with an identical pair are deduplicated by the timeline
dict, the LAST such segment supplying the label, stored at the position of
the first occurrence. -/
theorem C2_first_match_after_dict_dedup :
    (∀ (segs : List Segment) (t : ℚ),
        (segs.map fun s => (s.start_time, s.end_time)).Nodup →
          findSpeaker (speakerTimeline segs) t = specFirstMatchingLabel segs t)
    ∧ (∀ (s e : ℚ) (l₁ l₂ : String),
        speakerTimeline
            [{ start_time := s, end_time := e, speaker_label := l₁ },
             { start_time := s, end_time := e, speaker_label := l₂ }]
          = [((s, e), l₂)]) := by
  constructor
  · intro segs t h
    rw [speakerTimeline_nodup segs h, findSpeaker_map]
  · intro s e l₁ l₂
    simp [speakerTimeline, timelineInsert]

/-- C2 witness: the amended first-match rule at distinct-interval
segments. -/
theorem C2_first_match_after_dict_dedup_witness :
    (([{ start_time := 0, end_time := 1, speaker_label := "spk_0" },
       { start_time := 2, end_time := 3, speaker_label := "spk_1" }] :
        List Segment).map fun s => (s.start_time, s.end_time)).Nodup
    ∧ findSpeaker
        (speakerTimeline
          [{ start_time := 0, end_time := 1, speaker_label := "spk_0" },
           { start_time := 2, end_time := 3, speaker_label := "spk_1" }]) 0
      = specFirstMatchingLabel
          [{ start_time := 0, end_time := 1, speaker_label := "spk_0" },
           { start_time := 2, end_time := 3, speaker_label := "spk_1" }] 0 :=
  ⟨by decide,
   C2_first_match_after_dict_dedup.1
     [{ start_time := 0, end_time := 1, speaker_label := "spk_0" },
      { start_time := 2, end_time := 3, speaker_label := "spk_1" }] 0 (by decide)⟩

/-- C5: a word whose resolved speaker differs from the current run flushes
the run and starts a new one (never merging across the boundary), a word
with the same resolved speaker joins the run with space-joined text, and
the concrete two-words-then-one example renders as exactly two lines. -/
theorem C5_speaker_change_new_line :
    (∀ (tl : List ((ℚ × ℚ) × String)) (st : ConvState) (w : String) (ts te : ℚ),
        findSpeaker tl ts ≠ st.current_speaker →
          stepMC tl st (wordItem w ts te)
            = .ok { markdown_lines := flushMC st
                  , current_speaker := findSpeaker tl ts
                  , current_text := [w]
                  , current_start := some ts
                  , current_end := some te })
    ∧ (∀ (tl : List ((ℚ × ℚ) × String)) (st : ConvState) (w : String) (ts te : ℚ),
        findSpeaker tl ts = st.current_speaker →
          stepMC tl st (wordItem w ts te)
            = .ok { st with current_text := st.current_text ++ [w]
                          , current_end := some te })
    ∧ MarkdownConverter.convert_to_markdown
        (mkData [wordItem "Hello" 0 1, wordItem "there" 1 2, wordItem "Hi" 2 3]
          [{ start_time := 0, end_time := 1, speaker_label := "spk_0" },
           { start_time := 2, end_time := 3, speaker_label := "spk_1" }])
      = .ok ("# Meeting Transcript\n\n[speaker: spk_0][00:00-00:02]: Hello there"
          ++ "\n\n[speaker: spk_1][00:02-00:03]: Hi") := by
  refine ⟨?_, ?_, ?_⟩
  · intro tl st w ts te h
    rw [stepMC_word, if_pos h]
  · intro tl st w ts te h
    rw [stepMC_word, if_neg (by simp [h])]
  · have hA : speakerLine "spk_0" 0 2 "Hello there"
        = "[speaker: spk_0][00:00-00:02]: Hello there" := by
      unfold speakerLine
      rw [fmtTimestamp_zero, fmtTimestamp_two]
      rfl
    have hB : speakerLine "spk_1" 2 3 "Hi"
        = "[speaker: spk_1][00:02-00:03]: Hi" := by
      unfold speakerLine
      rw [fmtTimestamp_two, fmtTimestamp_three]
      rfl
    calc
      MarkdownConverter.convert_to_markdown
          (mkData [wordItem "Hello" 0 1, wordItem "there" 1 2, wordItem "Hi" 2 3]
            [{ start_time := 0, end_time := 1, speaker_label := "spk_0" },
             { start_time := 2, end_time := 3, speaker_label := "spk_1" }])
          = .ok ("# Meeting Transcript\n\n"
              ++ String.intercalate "\n\n"
                  [speakerLine "spk_0" 0 2 "Hello there",
                   speakerLine "spk_1" 2 3 "Hi"]) := rfl
      _ = .ok ("# Meeting Transcript\n\n[speaker: spk_0][00:00-00:02]: Hello there"
            ++ "\n\n[speaker: spk_1][00:02-00:03]: Hi") := by
          rw [hA, hB]
          rfl

/-- C5 witness: a concrete speaker change flushing and starting a new run,
and a concrete same-speaker continuation. -/
theorem C5_speaker_change_new_line_witness :
    findSpeaker [((0, 2), "spk_0")] 0 ≠ initState.current_speaker
    ∧ stepMC [((0, 2), "spk_0")] initState (wordItem "Hello" 0 1)
        = .ok { markdown_lines := flushMC initState
              , current_speaker := findSpeaker [((0, 2), "spk_0")] 0
              , current_text := ["Hello"]
              , current_start := some 0
              , current_end := some 1 }
    ∧ findSpeaker [((0, 2), "spk_0")] 1
        = (⟨[], some "spk_0", ["Hello"], some 0, some 1⟩ : ConvState).current_speaker
    ∧ stepMC [((0, 2), "spk_0")] ⟨[], some "spk_0", ["Hello"], some 0, some 1⟩
        (wordItem "there" 1 2)
        = .ok { (⟨[], some "spk_0", ["Hello"], some 0, some 1⟩ : ConvState) with
                  current_text := ["Hello"] ++ ["there"]
                , current_end := some 2 } :=
  ⟨by decide,
   C5_speaker_change_new_line.1 [((0, 2), "spk_0")] initState "Hello" 0 1 (by decide),
   by decide,
   C5_speaker_change_new_line.2.1 [((0, 2), "spk_0")]
     ⟨[], some "spk_0", ["Hello"], some 0, some 1⟩ "there" 1 2 (by decide)⟩

/-- C7: for a non-negative time in seconds, the rendered minutes are the
floor of seconds divided by 60, the rendered seconds are the floor of the
remainder after removing whole minutes (fractions truncated, never
rounded), each zero-padded to two digits, and 125.7 seconds renders as
02:05. -/
theorem C7_timestamp_truncated_format :
    (∀ q : ℚ, 0 ≤ q →
        pyInt (pyFloorDiv q 60) = ⌊q / 60⌋
        ∧ pyInt (pyMod q 60) = ⌊q - 60 * (⌊q / 60⌋ : ℚ)⌋
        ∧ fmtTimestamp q
            = pad2 ⌊q / 60⌋ ++ ":" ++ pad2 ⌊q - 60 * (⌊q / 60⌋ : ℚ)⌋)
    ∧ fmtTimestamp (1257 / 10 : ℚ) = "02:05" := by
  constructor
  · intro q hq
    have hm0 : (0 : ℤ) ≤ ⌊q / 60⌋ := Int.floor_nonneg.mpr (by positivity)
    have h1 : ¬((⌊q / 60⌋ : ℚ) < 0) :=
      not_lt.mpr (by exact_mod_cast hm0)
    have hmle : (⌊q / 60⌋ : ℚ) ≤ q / 60 := Int.floor_le _
    have h60 : 60 * (⌊q / 60⌋ : ℚ) ≤ q := by
      rw [le_div_iff₀ (by norm_num : (0:ℚ) < 60)] at hmle
      linarith
    have hsub : ¬(q - 60 * (⌊q / 60⌋ : ℚ) < 0) := not_lt.mpr (by linarith)
    refine ⟨?_, ?_, ?_⟩
    · unfold pyInt pyFloorDiv
      rw [if_neg h1, Int.floor_intCast]
    · unfold pyInt pyMod
      rw [if_neg hsub]
    · exact fmtTimestamp_eq q _ _ hq rfl rfl
  · rw [fmtTimestamp_eq (1257 / 10 : ℚ) 2 5 (by norm_num)
      (by norm_num [Int.floor_eq_iff]) (by norm_num [Int.floor_eq_iff])]
    rfl

/-- C7 witness: the truncation formulas at the concrete time 125
seconds. -/
theorem C7_timestamp_truncated_format_witness :
    (0 : ℚ) ≤ 125
    ∧ pyInt (pyFloorDiv 125 60) = ⌊(125 : ℚ) / 60⌋ :=
  ⟨by decide, (C7_timestamp_truncated_format.1 125 (by decide)).1⟩

lemma stepMC_malformed (tl : List ((ℚ × ℚ) × String)) (st : ConvState)
    (it : Item) (hty : it.type = "pronunciation")
    (hbad : it.start_time = none ∨ it.end_time = none ∨ it.alternatives = []) :
    stepMC tl st it = .error "KeyError" := by
  rcases it with ⟨ty, tst, ten, talts⟩
  simp only at hty hbad
  subst hty
  unfold stepMC
  rw [if_pos rfl]
  rcases hbad with h | h | h
  · subst h
    cases ten <;> cases talts <;> rfl
  · subst h
    cases tst <;> cases talts <;> rfl
  · subst h
    cases tst <;> cases ten <;> rfl

lemma foldlM_malformed (tl : List ((ℚ × ℚ) × String)) :
    ∀ (l : List Item) (st : ConvState),
      (∃ it ∈ l, it.type = "pronunciation"
          ∧ (it.start_time = none ∨ it.end_time = none ∨ it.alternatives = [])) →
      ∃ e, List.foldlM (stepMC tl) st l = .error e := by
  intro l
  induction l with
  | nil => intro st h; simp at h
  | cons it rest ih =>
      intro st h
      cases hstep : stepMC tl st it with
      | error e =>
          refine ⟨e, ?_⟩
          rw [List.foldlM_cons, hstep]
          rfl
      | ok st1 =>
          rcases h with ⟨bad, hmem, hb⟩
          rcases List.mem_cons.mp hmem with heq | hmem2
          · subst heq
            rw [stepMC_malformed tl st bad hb.1 hb.2] at hstep
            exact absurd hstep (by simp)
          · obtain ⟨e, he⟩ := ih st1 ⟨bad, hmem2, hb⟩
            refine ⟨e, ?_⟩
            rw [List.foldlM_cons, hstep]
            show List.foldlM (stepMC tl) st1 rest = .error e
            exact he

/-- C8: an input containing a pronunciation item that lacks a numeric
start or end time or whose alternatives list is empty makes the renderer
return a data-format error for the whole invocation, never a document. -/
theorem C8_malformed_word_raises (td : TranscriptData)
    (h : ∃ it ∈ td.results.items, it.type = "pronunciation"
          ∧ (it.start_time = none ∨ it.end_time = none ∨ it.alternatives = [])) :
    ∃ e, MarkdownConverter.convert_to_markdown td = .error e := by
  obtain ⟨e, he⟩ :=
    foldlM_malformed (speakerTimeline (getSegments td.results))
      td.results.items initState h
  refine ⟨e, ?_⟩
  unfold MarkdownConverter.convert_to_markdown
  dsimp only
  rw [he]

/-- C8 witness: a concrete pronunciation item with no timestamps makes the
renderer error out. -/
theorem C8_malformed_word_raises_witness :
    (∃ it ∈ (mkData [⟨"pronunciation", none, none, [⟨"Hi"⟩]⟩] []).results.items,
        it.type = "pronunciation"
        ∧ (it.start_time = none ∨ it.end_time = none ∨ it.alternatives = []))
    ∧ ∃ e, MarkdownConverter.convert_to_markdown
        (mkData [⟨"pronunciation", none, none, [⟨"Hi"⟩]⟩] []) = .error e :=
  ⟨by decide, C8_malformed_word_raises _ (by decide)⟩

/-- The invariant that makes the extra guards of the first copy redundant:
whenever the current run has a speaker value at all, its start and end
times are set. -/
def SpeakerImpliesTimes (st : ConvState) : Prop :=
  st.current_speaker ≠ none → st.current_start ≠ none ∧ st.current_end ≠ none

lemma flushAWS_eq (st : ConvState) (h : SpeakerImpliesTimes st) :
    flushAWS st = .ok (flushMC st) := by
  rcases st with ⟨lines, spk, text, cs, ce⟩
  cases spk with
  | none => rfl
  | some s =>
      obtain ⟨h1, h2⟩ := h (by simp [SpeakerImpliesTimes])
      simp only at h1 h2
      cases cs with
      | none => exact absurd rfl h1
      | some a =>
          cases ce with
          | none => exact absurd rfl h2
          | some b =>
              by_cases hs : s = ""
              · subst hs
                simp [flushAWS, flushMC, truthy]
              · by_cases ht : text = []
                · subst ht
                  simp [flushAWS, flushMC, truthy, hs]
                · simp [flushAWS, flushMC, truthy, hs, ht]

lemma stepAWS_eq_stepMC (tl : List ((ℚ × ℚ) × String)) (st : ConvState)
    (it : Item) (h : SpeakerImpliesTimes st) :
    stepAWS tl st it = stepMC tl st it := by
  rcases it with ⟨ty, tst, ten, talts⟩
  by_cases hp : ty = "pronunciation"
  · subst hp
    cases tst with
    | none => cases ten <;> cases talts <;> rfl
    | some a =>
        cases ten with
        | none => cases talts <;> rfl
        | some b =>
            cases talts with
            | nil => rfl
            | cons alt alts =>
                have hwA : stepAWS tl st
                      ⟨"pronunciation", some a, some b, alt :: alts⟩
                    = if findSpeaker tl a ≠ st.current_speaker then
                        match flushAWS st with
                        | .ok lines =>
                            .ok { markdown_lines := lines
                                , current_speaker := findSpeaker tl a
                                , current_text := [alt.content]
                                , current_start := some a
                                , current_end := some b }
                        | .error e => .error e
                      else
                        .ok { st with
                                current_text := st.current_text ++ [alt.content]
                              , current_end := some b } := rfl
                have hwM : stepMC tl st
                      ⟨"pronunciation", some a, some b, alt :: alts⟩
                    = if findSpeaker tl a ≠ st.current_speaker then
                        .ok { markdown_lines := flushMC st
                            , current_speaker := findSpeaker tl a
                            , current_text := [alt.content]
                            , current_start := some a
                            , current_end := some b }
                      else
                        .ok { st with
                                current_text := st.current_text ++ [alt.content]
                              , current_end := some b } := rfl
                rw [hwA, hwM]
                by_cases hd : findSpeaker tl a ≠ st.current_speaker
                · rw [if_pos hd, if_pos hd, flushAWS_eq st h]
                · rw [if_neg hd, if_neg hd]
  · unfold stepAWS stepMC
    rw [if_neg hp, if_neg hp]

lemma stepMC_inv (tl : List ((ℚ × ℚ) × String)) (st st1 : ConvState)
    (it : Item) (h : SpeakerImpliesTimes st)
    (hstep : stepMC tl st it = .ok st1) : SpeakerImpliesTimes st1 := by
  rcases it with ⟨ty, tst, ten, talts⟩
  by_cases hp : ty = "pronunciation"
  · subst hp
    cases tst with
    | none => simp [stepMC] at hstep
    | some a =>
        cases ten with
        | none => simp [stepMC] at hstep
        | some b =>
            cases talts with
            | nil => simp [stepMC] at hstep
            | cons alt alts =>
                have hw : stepMC tl st ⟨"pronunciation", some a, some b, alt :: alts⟩
                    = if findSpeaker tl a ≠ st.current_speaker then
                        .ok { markdown_lines := flushMC st
                            , current_speaker := findSpeaker tl a
                            , current_text := [alt.content]
                            , current_start := some a
                            , current_end := some b }
                      else
                        .ok { st with current_text := st.current_text ++ [alt.content]
                                    , current_end := some b } := rfl
                rw [hw] at hstep
                by_cases hd : findSpeaker tl a ≠ st.current_speaker
                · rw [if_pos hd] at hstep
                  cases hstep
                  intro _
                  exact ⟨by simp, by simp⟩
                · rw [if_neg hd] at hstep
                  cases hstep
                  intro hsp
                  exact ⟨(h hsp).1, by simp⟩
  · by_cases hq : ty = "punctuation"
    · subst hq
      unfold stepMC at hstep
      rw [if_neg hp, if_pos rfl] at hstep
      by_cases ht : st.current_text = []
      · rw [if_neg (by simp [ht])] at hstep
        cases hstep
        exact h
      · rw [if_pos ht] at hstep
        cases talts with
        | nil => simp at hstep
        | cons alt alts =>
            cases hstep
            intro hsp
            exact h hsp
    · unfold stepMC at hstep
      rw [if_neg hp, if_neg hq] at hstep
      cases hstep
      exact h

lemma foldlM_equiv (tl : List ((ℚ × ℚ) × String)) :
    ∀ (l : List Item) (st : ConvState), SpeakerImpliesTimes st →
      List.foldlM (stepAWS tl) st l = List.foldlM (stepMC tl) st l
      ∧ ∀ st', List.foldlM (stepMC tl) st l = .ok st' → SpeakerImpliesTimes st' := by
  intro l
  induction l with
  | nil =>
      intro st h
      refine ⟨rfl, ?_⟩
      intro st' h'
      simp only [List.foldlM_nil, pure, Except.pure, Except.ok.injEq] at h'
      rw [← h']
      exact h
  | cons it rest ih =>
      intro st h
      have hs := stepAWS_eq_stepMC tl st it h
      rw [List.foldlM_cons, List.foldlM_cons, hs]
      cases hstep : stepMC tl st it with
      | error e =>
          refine ⟨rfl, ?_⟩
          intro st' h'
          simp [Bind.bind, Except.bind] at h'
      | ok st1 =>
          have h1 := stepMC_inv tl st st1 it h hstep
          obtain ⟨heq, hinv⟩ := ih st1 h1
          constructor
          · show List.foldlM (stepAWS tl) st1 rest = List.foldlM (stepMC tl) st1 rest
            exact heq
          · intro st' h'
            exact hinv st' h'

/-- C10: the two copies of the renderer are extensionally equal — on every
input they return the same result (the same document content, or the same
error), the extra time guards of the markdown_converter copy never
changing the outcome. -/
theorem C10_copies_extensionally_equal (td : TranscriptData) :
    MarkdownConverter.convert_to_markdown td
      = AwsTranscribe.convert_to_markdown td := by
  unfold MarkdownConverter.convert_to_markdown AwsTranscribe.convert_to_markdown
  dsimp only
  obtain ⟨heq, hinv⟩ :=
    foldlM_equiv (speakerTimeline (getSegments td.results)) td.results.items
      initState (fun hsp => absurd rfl hsp)
  rw [heq]
  cases hf : List.foldlM (stepMC (speakerTimeline (getSegments td.results)))
      initState td.results.items with
  | error e => rfl
  | ok stf =>
      have hfl := flushAWS_eq stf (hinv stf hf)
      dsimp only
      rw [hfl]
